import Mathlib

/-!
Shallow embedding of the `plugin-translator` package: the language keyword
table (`constants.ts`), the keyword matcher, the model-based classifier
wrapper and the detection chain (`utils/languageDetection.ts`), the
translator (`utils/translation.ts`), and the request handler
(`actions/translateAction.ts`).

Texts are modelled as `List Char`.  JavaScript `toLowerCase` is modelled
per-character by `Char.toLower`, which lowercases exactly the ASCII range;
every cased character appearing in the keyword table is ASCII (the CJK and
Hangul keywords are caseless), so this is faithful on the relevant
alphabet.  The network calls are modelled by explicit outcome parameters:
an exception raised by the call or a response string, which is all the
source reads from them (`response.choices[0].message.content`).
-/

namespace MoxieTranslator

/-- Characters of a string literal. -/
def str (s : String) : List Char := s.toList

/-- JavaScript `String.prototype.toLowerCase`, per character (ASCII range). -/
def jsToLower (l : List Char) : List Char := l.map Char.toLower

/-- Whitespace characters removed by JavaScript `String.prototype.trim`. -/
def isJsWhitespace (c : Char) : Bool :=
  c == ' ' || c == '\t' || c == '\n' || c == '\r' || c == '\x0b' || c == '\x0c'

/-- JavaScript `String.prototype.trim`: drop whitespace at both ends. -/
def jsTrim (l : List Char) : List Char :=
  ((l.dropWhile isJsWhitespace).reverse.dropWhile isJsWhitespace).reverse

/-- JavaScript `String.prototype.includes`: `k` occurs contiguously in `t`. -/
def containsSub (t k : List Char) : Bool := decide (k <:+: t)

/-- Keyword list of the `japanese` entry of `LANGUAGE_KEYWORDS` (constants.ts). -/
def japaneseKeywords : List (List Char) :=
  [str "日本語", str "にほんご", str "和訳", str "nihongo", str "japanese",
   str "japan", str "일본어", str "일본", str "니혼고"]

/-- Keyword list of the `english` entry of `LANGUAGE_KEYWORDS` (constants.ts). -/
def englishKeywords : List (List Char) :=
  [str "英語", str "えいご", str "英訳", str "eigo", str "english",
   str "eng", str "영어", str "잉글리시", str "영국어"]

/-- Keyword list of the `korean` entry of `LANGUAGE_KEYWORDS` (constants.ts). -/
def koreanKeywords : List (List Char) :=
  [str "韓国語", str "かんこくご", str "ハングル", str "kankokugo", str "korean",
   str "korea", str "hangul", str "한국어", str "한글", str "조선말"]

/-- The `LANGUAGE_KEYWORDS` table of `constants.ts`, as an ordered
association list; JavaScript object literals with string keys iterate in
insertion order, which this list order models. -/
def LANGUAGE_KEYWORDS : List (List Char × List (List Char)) :=
  [(str "japanese", japaneseKeywords),
   (str "english", englishKeywords),
   (str "korean", koreanKeywords)]

/-- `DEFAULT_LANGUAGE` of `constants.ts`. -/
def DEFAULT_LANGUAGE : List Char := str "english"

/-- `getSupportedLanguages` of `constants.ts`: `Object.keys(LANGUAGE_KEYWORDS)`. -/
def getSupportedLanguages : List (List Char) := LANGUAGE_KEYWORDS.map Prod.fst

/-- Inner loop of `detectLanguageByKeywords`: does some keyword of the entry,
lower-cased, occur in the (already lower-cased) text? -/
def languageMatches (lowerText : List Char) (keywords : List (List Char)) : Bool :=
  keywords.any (fun k => containsSub lowerText (jsToLower k))

/-- Outer loop of `detectLanguageByKeywords` over `Object.entries(LANGUAGE_KEYWORDS)`:
return the first language one of whose keywords occurs in the text. -/
def scanLanguages (entries : List (List Char × List (List Char)))
    (lowerText : List Char) : Option (List Char) :=
  match entries with
  | [] => none
  | (language, keywords) :: rest =>
    if languageMatches lowerText keywords then some language
    else scanLanguages rest lowerText

/-- `detectLanguageByKeywords` of `utils/languageDetection.ts`. -/
def detectLanguageByKeywords (text : List Char) : Option (List Char) :=
  scanLanguages LANGUAGE_KEYWORDS (jsToLower text)

/-- Behaviour of the single `chat.completions.create` call made by
`detectLanguageByPrompt`: either something inside the `try` block raises
(network error, malformed response such as a missing `content`, credential
failure), or it yields a response string `content`. -/
inductive ClassifierBehaviour where
  | throws : ClassifierBehaviour
  | returns (content : List Char) : ClassifierBehaviour

/-- Normalization applied by `detectLanguageByPrompt` to the response:
`content.trim().toLowerCase()`. -/
def normalizeResponse (content : List Char) : List Char := jsToLower (jsTrim content)

/-- `detectLanguageByPrompt` of `utils/languageDetection.ts`: the whole body
is wrapped in `try`/`catch`, the `catch` returns `null`; on success the
trimmed lower-cased response string is returned (even when it is empty). -/
def detectLanguageByPrompt (text : List Char) (b : ClassifierBehaviour) :
    Option (List Char) :=
  match b with
  | .throws => none
  | .returns content => some (normalizeResponse content)

/-- JavaScript truthiness-based selection used by `detectLanguage`:
`if (x) return x;` followed by the fallback, where `x : string | null`
is falsy exactly on `null` and on the empty string. -/
def jsStringOr (o : Option (List Char)) (fallback : List Char) : List Char :=
  match o with
  | some s => if s = [] then fallback else s
  | none => fallback

/-- `detectLanguage` of `utils/languageDetection.ts`: keyword detection,
then prompt-based detection, then `DEFAULT_LANGUAGE`. -/
def detectLanguage (text : List Char) (b : ClassifierBehaviour) : List Char :=
  jsStringOr (detectLanguageByKeywords text)
    (jsStringOr (detectLanguageByPrompt text b) DEFAULT_LANGUAGE)

/-- Outcome of one `chat.completions.create` call made by `translateText`:
either it raises with a message, or it yields a response string. -/
inductive ApiOutcome where
  | failure (message : List Char) : ApiOutcome
  | success (content : List Char) : ApiOutcome

/-- Message of the error thrown by the `catch` block of `translateText`:
`Error occurred during translation: ${error.message}`. -/
def translationErrorText (message : List Char) : List Char :=
  str "Error occurred during translation: " ++ message

/-- System message of the translation request built by `translateText`,
with the target language embedded verbatim in the template literal. -/
def translatorSystemMessage (targetLanguage : List Char) : List Char :=
  str "You are a high-quality translator. Your task is to translate the given text to " ++
  targetLanguage ++
  str ".\nIMPORTANT: Preserve all Markdown formatting. DO NOT add ANY explanations or comments.\nONLY provide the direct translation of the text. No introductions, no questions, no additional text."

/-- `translateText` of `utils/translation.ts`.  `api n` is the outcome the
text-generation API would give to the `n`-th call the function might make;
the source makes exactly one call (`api 0`), trims a successful response,
and wraps a failure in a new error without retrying. -/
def translateText (text targetLanguage : List Char) (api : Nat → ApiOutcome) :
    Except (List Char) (List Char) :=
  match api 0 with
  | .success content => .ok (jsTrim content)
  | .failure message => .error (translationErrorText message)

/-- JavaScript truthiness of a `string | null | undefined` value:
falsy exactly on absence and on the empty string. -/
def jsTruthy (o : Option (List Char)) : Bool :=
  match o with
  | none => false
  | some s => decide (s ≠ [])

/-- `content` field of a stored message, as read by the handler. -/
structure MsgContent where
  text : Option (List Char)

/-- A message of `state.recentMessagesData`, as read by the handler. -/
structure Msg where
  userId : List Char
  content : Option MsgContent

/-- Outcome of the `await detectLanguage(...)` call made by the handler: the value it
resolves with, or a rejection (caught by the inner `catch` of the handler). -/
inductive DetectOutcome where
  | ok (lang : List Char) : DetectOutcome
  | err : DetectOutcome

/-- Outcome of the `await translateText(...)` call made by the handler: the value it
resolves with, or a rejection (caught by the outer `catch` of the handler). -/
inductive TranslateOutcome where
  | ok (translated : List Char) : TranslateOutcome
  | err (message : List Char) : TranslateOutcome

/-- Observable result of one run of `translateAction.handler`: the value the
returned promise resolves with (`none` models `undefined`, reached by falling
off the end of the function body) and the texts sent through `callback`. -/
structure HandlerResult where
  ret : Option Bool
  callbackTexts : List (List Char)

/-- `previousMessages.slice().reverse().find((msg) => msg.userId === runtime.agentId)`. -/
def findLastAgentMessage (messages : List Msg) (agentId : List Char) : Option Msg :=
  messages.reverse.find? (fun m => decide (m.userId = agentId))

/-- `translateAction.handler` of `actions/translateAction.ts`.
`apiKey` is `runtime.getSetting("OPENAI_API_KEY")`, `recentMessagesData`
the conversation history, `messageText` the user instruction
(`message.content.text`), and `detect`/`translate` the outcomes of the two
awaited calls.  Every guard failure performs one callback and returns
`false`; the success path performs the callback with the translated text
and reaches the end of the body with no `return` statement. -/
def translateHandler (apiKey : Option (List Char)) (recentMessagesData : List Msg)
    (agentId : List Char) (messageText : Option (List Char))
    (detect : DetectOutcome) (translate : TranslateOutcome) : HandlerResult :=
  if !(jsTruthy apiKey) then
    { ret := some false, callbackTexts := [str "OpenAI API key is not configured"] }
  else if recentMessagesData.length < 2 then
    { ret := some false, callbackTexts := [str "No previous message to translate"] }
  else
    match findLastAgentMessage recentMessagesData agentId with
    | none =>
      { ret := some false, callbackTexts := [str "No agent message found to translate"] }
    | some m =>
      match m.content with
      | none =>
        { ret := some false, callbackTexts := [str "No agent message found to translate"] }
      | some content =>
        if !(jsTruthy content.text) then
          { ret := some false, callbackTexts := [str "No agent message found to translate"] }
        else
          match detect with
          | .err =>
            { ret := some false, callbackTexts := [str "Could not detect target language"] }
          | .ok _lang =>
            match translate with
            | .err message =>
              { ret := some false,
                callbackTexts := [str "Error during translation: " ++ message] }
            | .ok translated =>
              { ret := none, callbackTexts := [translated] }

/-- Languages of the keyword table, in table order, that have a trigger
occurring in the lower-cased text. -/
def matchingLanguages (text : List Char) : List (List Char) :=
  (LANGUAGE_KEYWORDS.filter (fun p => languageMatches (jsToLower text) p.2)).map Prod.fst

/-- The text contains, after lower-casing, some trigger substring registered
under language `L` in the keyword table. -/
def hasTriggerOf (text L : List Char) : Prop :=
  ∃ kws k, (L, kws) ∈ LANGUAGE_KEYWORDS ∧ k ∈ kws ∧
    containsSub (jsToLower text) (jsToLower k) = true

/-- Position of the first occurrence of `L` in `keys` (length of `keys`
when absent). -/
def rankIn (keys : List (List Char)) (L : List Char) : Nat :=
  match keys with
  | [] => 0
  | k :: rest => if k = L then 0 else rankIn rest L + 1

/-- Position of a language in the definition order of the keyword table. -/
def tableRank (L : List Char) : Nat := rankIn getSupportedLanguages L

end MoxieTranslator


namespace MoxieTranslator

theorem scanLanguages_mem {entries : List (List Char × List (List Char))}
    {t r : List Char} (h : scanLanguages entries t = some r) :
    r ∈ entries.map Prod.fst := by
  induction entries with
  | nil => simp [scanLanguages] at h
  | cons p rest ih =>
    obtain ⟨language, kws⟩ := p
    by_cases hm : languageMatches t kws
    · simp [scanLanguages, hm] at h
      simp [h]
    · simp [scanLanguages, hm] at h
      simp [ih h]

theorem detectLanguageByKeywords_mem {text L : List Char}
    (h : detectLanguageByKeywords text = some L) : L ∈ getSupportedLanguages :=
  scanLanguages_mem h

theorem scanLanguages_skip {pre rest : List (List Char × List (List Char))}
    {t : List Char} (h : ∀ p ∈ pre, languageMatches t p.2 = false) :
    scanLanguages (pre ++ rest) t = scanLanguages rest t := by
  induction pre with
  | nil => rfl
  | cons p pre ih =>
    obtain ⟨language, kws⟩ := p
    have hp : languageMatches t kws = false := h (language, kws) (List.mem_cons_self _ _)
    simp only [List.cons_append, scanLanguages, hp, Bool.false_eq_true, if_false]
    exact ih (fun q hq => h q (List.mem_cons_of_mem _ hq))

theorem scanLanguages_eq_filter_head
    (entries : List (List Char × List (List Char))) (t : List Char) :
    scanLanguages entries t =
      ((entries.filter (fun p => languageMatches t p.2)).map Prod.fst).head? := by
  induction entries with
  | nil => rfl
  | cons p rest ih =>
    obtain ⟨language, kws⟩ := p
    by_cases hm : languageMatches t kws
    · simp [scanLanguages, hm, List.filter_cons]
    · simp [scanLanguages, hm, List.filter_cons, ih]

theorem detect_eq_matching_head (text : List Char) :
    detectLanguageByKeywords text = (matchingLanguages text).head? :=
  scanLanguages_eq_filter_head LANGUAGE_KEYWORDS (jsToLower text)

theorem hasTriggerOf_iff_mem (text L : List Char) :
    hasTriggerOf text L ↔ L ∈ matchingLanguages text := by
  constructor
  · rintro ⟨kws, k, hmem, hk, hc⟩
    refine List.mem_map.mpr ⟨(L, kws), List.mem_filter.mpr ⟨hmem, ?_⟩, rfl⟩
    exact List.any_eq_true.mpr ⟨k, hk, hc⟩
  · intro h
    obtain ⟨p, hp, hfst⟩ := List.mem_map.mp h
    obtain ⟨hmem, hmatch⟩ := List.mem_filter.mp hp
    obtain ⟨k, hk, hc⟩ := List.any_eq_true.mp hmatch
    exact ⟨p.2, k, by rw [← hfst]; exact hmem, hk, hc⟩

end MoxieTranslator

namespace MoxieTranslator

theorem mem_supported_ne_nil {L : List Char} (h : L ∈ getSupportedLanguages) :
    L ≠ [] := by
  have hall : ∀ L2 ∈ getSupportedLanguages, L2 ≠ [] := by decide
  exact hall L h

/-- C9: the keyword matcher returns either no match or a key of the keyword
table, i.e. a member of `getSupportedLanguages`. -/
theorem C9_keyword_result_supported (text : List Char) :
    detectLanguageByKeywords text = none ∨
    ∃ L, detectLanguageByKeywords text = some L ∧ L ∈ getSupportedLanguages := by
  cases h : detectLanguageByKeywords text with
  | none => exact Or.inl rfl
  | some L => exact Or.inr ⟨L, rfl, detectLanguageByKeywords_mem h⟩

/-- C1 as stated is false: "korean" is a trigger registered under the
language "korean" and occurs in the input "japan korean", yet
`detectLanguageByKeywords` returns "japanese", because the japanese entry
is scanned first and its trigger "japan" also occurs. -/
theorem C1_counterexample :
    (str "korean", koreanKeywords) ∈ LANGUAGE_KEYWORDS ∧
    str "korean" ∈ koreanKeywords ∧
    containsSub (str "japan korean") (str "korean") = true ∧
    detectLanguageByKeywords (str "japan korean") = some (str "japanese") ∧
    detectLanguageByKeywords (str "japan korean") ≠ some (str "korean") := by
  exact ⟨by decide, by decide, by decide, by decide, by decide⟩

/-- C1 amended: if a trigger `K` registered under `L` occurs (in any letter
case) in the text and no entry earlier than `L` in the keyword table has an
occurring trigger, then `detectLanguageByKeywords` returns `L`. -/
theorem C1_trigger_detected (L K text : List Char) (kws : List (List Char))
    (pre post : List (List Char × List (List Char)))
    (htable : LANGUAGE_KEYWORDS = pre ++ (L, kws) :: post)
    (hK : K ∈ kws)
    (hocc : ∃ v, v <:+: text ∧ jsToLower v = jsToLower K)
    (hpre : ∀ p ∈ pre, languageMatches (jsToLower text) p.2 = false) :
    detectLanguageByKeywords text = some L := by
  obtain ⟨v, hv, hlow⟩ := hocc
  have hinf : jsToLower K <:+: jsToLower text := by
    rw [← hlow]
    exact List.IsInfix.map Char.toLower hv
  have hmatch : languageMatches (jsToLower text) kws = true :=
    List.any_eq_true.mpr ⟨K, hK, decide_eq_true hinf⟩
  unfold detectLanguageByKeywords
  rw [htable, scanLanguages_skip hpre]
  simp [scanLanguages, hmatch]

theorem C1_trigger_detected_witness :
    (LANGUAGE_KEYWORDS =
        [(str "japanese", japaneseKeywords), (str "english", englishKeywords)] ++
          (str "korean", koreanKeywords) :: [] ∧
      str "korean" ∈ koreanKeywords ∧
      (∃ v, v <:+: str "Give me KOREAN" ∧ jsToLower v = jsToLower (str "korean")) ∧
      (∀ p ∈ [(str "japanese", japaneseKeywords), (str "english", englishKeywords)],
        languageMatches (jsToLower (str "Give me KOREAN")) p.2 = false)) ∧
    detectLanguageByKeywords (str "Give me KOREAN") = some (str "korean") :=
  ⟨⟨rfl, by decide, ⟨str "KOREAN", by decide, by decide⟩, by decide⟩,
    C1_trigger_detected (str "korean") (str "korean") (str "Give me KOREAN")
      koreanKeywords
      [(str "japanese", japaneseKeywords), (str "english", englishKeywords)] []
      rfl (by decide) ⟨str "KOREAN", by decide, by decide⟩ (by decide)⟩

/-- C3: when the keyword matcher succeeds, `detectLanguage` returns exactly
its result, for every behaviour of the classifier call; in particular the
result is independent of the classifier. -/
theorem C3_keyword_bypasses_classifier (text L : List Char)
    (h : detectLanguageByKeywords text = some L) :
    (∀ b, detectLanguage text b = L) ∧
    (∀ b b2, detectLanguage text b = detectLanguage text b2) := by
  have hne : L ≠ [] := mem_supported_ne_nil (detectLanguageByKeywords_mem h)
  have hall : ∀ b, detectLanguage text b = L := by
    intro b
    unfold detectLanguage
    rw [h]
    simp [jsStringOr, hne]
  exact ⟨hall, fun b b2 => by rw [hall b, hall b2]⟩

theorem C3_keyword_bypasses_classifier_witness :
    detectLanguageByKeywords (str "translate to Japanese") = some (str "japanese") ∧
    (∀ b, detectLanguage (str "translate to Japanese") b = str "japanese") :=
  ⟨by decide,
    (C3_keyword_bypasses_classifier (str "translate to Japanese") (str "japanese")
      (by decide)).1⟩

/-- C5: when the call inside `detectLanguageByPrompt` raises, the function
returns the distinguished no-match value `null` instead of propagating. -/
theorem C5_classifier_failure_returns_none (text : List Char) :
    detectLanguageByPrompt text ClassifierBehaviour.throws = none := rfl

end MoxieTranslator

namespace MoxieTranslator

/-- C4: `detectLanguage` is total and always yields a non-empty language
identifier; when the keyword matcher finds nothing and the classifier call
either raises or normalizes to the empty string, it returns the static
default language "english". -/
theorem C4_detect_total_default (text : List Char) (b : ClassifierBehaviour) :
    detectLanguage text b ≠ [] ∧
    (detectLanguageByKeywords text = none →
      (b = ClassifierBehaviour.throws ∨
        ∃ c, b = ClassifierBehaviour.returns c ∧ normalizeResponse c = []) →
      detectLanguage text b = DEFAULT_LANGUAGE ∧
      detectLanguage text b = str "english") := by
  constructor
  · unfold detectLanguage
    cases h : detectLanguageByKeywords text with
    | some L =>
      have hne : L ≠ [] := mem_supported_ne_nil (detectLanguageByKeywords_mem h)
      simp [jsStringOr, hne]
    | none =>
      cases b with
      | throws => simp [detectLanguageByPrompt, jsStringOr, DEFAULT_LANGUAGE, str]
      | returns c =>
        by_cases hc : normalizeResponse c = []
        · simp [detectLanguageByPrompt, jsStringOr, hc, DEFAULT_LANGUAGE, str]
        · simp [detectLanguageByPrompt, jsStringOr, hc]
  · intro hk hb
    have : detectLanguage text b = DEFAULT_LANGUAGE := by
      unfold detectLanguage
      rw [hk]
      rcases hb with rfl | ⟨c, rfl, hc⟩
      · rfl
      · simp [detectLanguageByPrompt, jsStringOr, hc]
    exact ⟨this, this⟩

theorem C4_detect_total_default_witness :
    (detectLanguageByKeywords (str "hello") = none ∧
      detectLanguage (str "hello") ClassifierBehaviour.throws = DEFAULT_LANGUAGE) ∧
    detectLanguage (str "hello") ClassifierBehaviour.throws ≠ [] :=
  ⟨⟨by decide,
      ((C4_detect_total_default (str "hello") ClassifierBehaviour.throws).2
        (by decide) (Or.inl rfl)).1⟩,
    (C4_detect_total_default (str "hello") ClassifierBehaviour.throws).1⟩

/-- C6 as stated is false: a response of whitespace only normalizes to the
empty string, yet `detectLanguageByPrompt` returns the empty string (a
non-null value), not the distinguished absent value `null`. -/
theorem C6_counterexample :
    normalizeResponse (str " ") = [] ∧
    detectLanguageByPrompt (str "hola") (ClassifierBehaviour.returns (str " ")) ≠ none ∧
    detectLanguageByPrompt (str "hola") (ClassifierBehaviour.returns (str " ")) = some [] := by
  exact ⟨by decide, by decide, by decide⟩

/-- C6 amended: when the response normalizes to the empty string,
`detectLanguageByPrompt` returns the empty string (`some []`, not `null`),
and `detectLanguage` treats that result exactly like the `null` returned on
classifier failure: the two runs of the chain agree. -/
theorem C6_empty_response_no_match (text c : List Char)
    (h : normalizeResponse c = []) :
    detectLanguageByPrompt text (ClassifierBehaviour.returns c) = some [] ∧
    detectLanguage text (ClassifierBehaviour.returns c) =
      detectLanguage text ClassifierBehaviour.throws := by
  constructor
  · simp [detectLanguageByPrompt, h]
  · unfold detectLanguage
    cases hk : detectLanguageByKeywords text with
    | some L =>
      have hne : L ≠ [] := mem_supported_ne_nil (detectLanguageByKeywords_mem hk)
      simp [jsStringOr, hne]
    | none => simp [detectLanguageByPrompt, jsStringOr, h]

theorem C6_empty_response_no_match_witness :
    normalizeResponse (str "   ") = [] ∧
    detectLanguageByPrompt (str "hola") (ClassifierBehaviour.returns (str "   ")) = some [] ∧
    detectLanguage (str "hola") (ClassifierBehaviour.returns (str "   ")) =
      detectLanguage (str "hola") ClassifierBehaviour.throws :=
  ⟨by decide,
    (C6_empty_response_no_match (str "hola") (str "   ") (by decide)).1,
    (C6_empty_response_no_match (str "hola") (str "   ") (by decide)).2⟩

/-- C7: when the API call made by `translateText` fails, no retry happens
(the result depends only on the outcome of the first call) and the function
yields a wrapped failure whose message starts with
"Error occurred during translation" and carries the original message. -/
theorem C7_translation_failure_wrapped (text targetLanguage msg : List Char)
    (api : Nat → ApiOutcome) (h : api 0 = ApiOutcome.failure msg) :
    translateText text targetLanguage api =
      Except.error (translationErrorText msg) ∧
    str "Error occurred during translation" <:+: translationErrorText msg ∧
    msg <:+: translationErrorText msg ∧
    ∀ api2 : Nat → ApiOutcome, api2 0 = api 0 →
      translateText text targetLanguage api2 = translateText text targetLanguage api := by
  refine ⟨?_, ?_, ?_, ?_⟩
  · unfold translateText
    rw [h]
  · unfold translationErrorText
    refine ⟨[], str ": " ++ msg, ?_⟩
    rw [List.nil_append, ← List.append_assoc]
    rfl
  · unfold translationErrorText
    exact ⟨str "Error occurred during translation: ", [], by rw [List.append_nil]⟩
  · intro api2 h2
    unfold translateText
    rw [h2]

theorem C7_translation_failure_wrapped_witness :
    (fun _ : Nat => ApiOutcome.failure (str "boom")) 0 =
      ApiOutcome.failure (str "boom") ∧
    translateText (str "Hello") (str "japanese")
        (fun _ => ApiOutcome.failure (str "boom")) =
      Except.error (translationErrorText (str "boom")) ∧
    str "Error occurred during translation" <:+: translationErrorText (str "boom") :=
  ⟨rfl,
    (C7_translation_failure_wrapped (str "Hello") (str "japanese") (str "boom")
      (fun _ => ApiOutcome.failure (str "boom")) rfl).1,
    (C7_translation_failure_wrapped (str "Hello") (str "japanese") (str "boom")
      (fun _ => ApiOutcome.failure (str "boom")) rfl).2.1⟩

/-- C8: the classifier output is not validated against the supported set:
whenever the keyword matcher fails and the normalized response is non-empty,
`detectLanguage` returns it unchanged, and it is embedded verbatim in the
system message of the translator. -/
theorem C8_classifier_output_passthrough (text c : List Char)
    (hk : detectLanguageByKeywords text = none)
    (hne : normalizeResponse c ≠ []) :
    detectLanguage text (ClassifierBehaviour.returns c) = normalizeResponse c ∧
    normalizeResponse c <:+: translatorSystemMessage (normalizeResponse c) := by
  constructor
  · unfold detectLanguage
    rw [hk]
    simp [detectLanguageByPrompt, jsStringOr, hne]
  · exact ⟨_, _, rfl⟩

theorem C8_classifier_output_passthrough_witness :
    (detectLanguageByKeywords (str "hola") = none ∧
      normalizeResponse (str " French ") ≠ [] ∧
      normalizeResponse (str " French ") = str "french" ∧
      str "french" ∉ getSupportedLanguages) ∧
    detectLanguage (str "hola") (ClassifierBehaviour.returns (str " French ")) =
      normalizeResponse (str " French ") ∧
    normalizeResponse (str " French ") <:+:
      translatorSystemMessage (normalizeResponse (str " French ")) :=
  ⟨⟨by decide, by decide, by decide, by decide⟩,
    (C8_classifier_output_passthrough (str "hola") (str " French ")
      (by decide) (by decide)).1,
    (C8_classifier_output_passthrough (str "hola") (str " French ")
      (by decide) (by decide)).2⟩

end MoxieTranslator

namespace MoxieTranslator

theorem head_of_eq_some_mem {l : List (List Char)} {L : List Char}
    (h : l.head? = some L) : L ∈ l := by
  cases l with
  | nil => simp at h
  | cons x xs =>
    simp only [List.head?_cons, Option.some.injEq] at h
    rw [← h]
    exact List.mem_cons_self x xs

theorem mem_map_fst_of_mem_filter_map_fst
    {l : List (List Char × List (List Char))} {p : List Char × List (List Char) → Bool}
    {M : List Char} (h : M ∈ (l.filter p).map Prod.fst) : M ∈ l.map Prod.fst := by
  obtain ⟨x, hx, hfx⟩ := List.mem_map.mp h
  exact List.mem_map.mpr ⟨x, List.mem_of_mem_filter hx, hfx⟩

theorem head_rank_le (l : List (List Char × List (List Char)))
    (p : List Char × List (List Char) → Bool)
    (hnd : (l.map Prod.fst).Nodup) :
    ∀ M ∈ (l.filter p).map Prod.fst,
      ∃ L, ((l.filter p).map Prod.fst).head? = some L ∧
        rankIn (l.map Prod.fst) L ≤ rankIn (l.map Prod.fst) M := by
  induction l with
  | nil =>
    intro M hM
    simp at hM
  | cons a l ih =>
    intro M hM
    have hnd2 : (l.map Prod.fst).Nodup := (List.nodup_cons.mp (by simpa using hnd)).2
    have hout : a.1 ∉ l.map Prod.fst := (List.nodup_cons.mp (by simpa using hnd)).1
    by_cases hp : p a
    · refine ⟨a.1, by simp [List.filter_cons, hp], ?_⟩
      simp [rankIn]
    · have hM2 : M ∈ (l.filter p).map Prod.fst := by
        simpa [List.filter_cons, hp] using hM
      obtain ⟨L, hL, hle⟩ := ih hnd2 M hM2
      have hLmem : L ∈ l.map Prod.fst :=
        mem_map_fst_of_mem_filter_map_fst (head_of_eq_some_mem hL)
      have hMmem : M ∈ l.map Prod.fst :=
        mem_map_fst_of_mem_filter_map_fst hM2
      have hneL : a.1 ≠ L := fun hEq => hout (hEq ▸ hLmem)
      have hneM : a.1 ≠ M := fun hEq => hout (hEq ▸ hMmem)
      refine ⟨L, by simpa [List.filter_cons, hp] using hL, ?_⟩
      simp only [List.map_cons, rankIn, if_neg hneL, if_neg hneM]
      omega

/-- C2: when the input contains trigger substrings of two (or more)
different languages, the keyword matcher returns the matching language that
appears earliest in the definition order of the keyword table, independently of
where the triggers occur in the input. -/
theorem C2_table_order_precedence (text La Lb : List Char)
    (ha : hasTriggerOf text La) (hb : hasTriggerOf text Lb) (hne : La ≠ Lb) :
    ∃ L, detectLanguageByKeywords text = some L ∧ hasTriggerOf text L ∧
      ∀ M, hasTriggerOf text M → tableRank L ≤ tableRank M := by
  rw [hasTriggerOf_iff_mem] at ha
  have hnd : (LANGUAGE_KEYWORDS.map Prod.fst).Nodup := by decide
  obtain ⟨L, hL, hleL⟩ :=
    head_rank_le LANGUAGE_KEYWORDS
      (fun p => languageMatches (jsToLower text) p.2) hnd La ha
  have hdet : detectLanguageByKeywords text = some L := by
    rw [detect_eq_matching_head]
    exact hL
  have hLmem : L ∈ matchingLanguages text := head_of_eq_some_mem hL
  refine ⟨L, hdet, (hasTriggerOf_iff_mem text L).mpr hLmem, ?_⟩
  intro M hM
  obtain ⟨L2, hL2, hle2⟩ :=
    head_rank_le LANGUAGE_KEYWORDS
      (fun p => languageMatches (jsToLower text) p.2) hnd M
      ((hasTriggerOf_iff_mem text M).mp hM)
  have hEq : L2 = L := Option.some.inj (hL2.symm.trans hL)
  exact hEq ▸ hle2

theorem C2_table_order_precedence_witness :
    (hasTriggerOf (str "한국어 japan") (str "japanese") ∧
      hasTriggerOf (str "한국어 japan") (str "korean") ∧
      str "japanese" ≠ str "korean") ∧
    (∃ L, detectLanguageByKeywords (str "한국어 japan") = some L ∧
      hasTriggerOf (str "한국어 japan") L ∧
      ∀ M, hasTriggerOf (str "한국어 japan") M → tableRank L ≤ tableRank M) :=
  ⟨⟨⟨japaneseKeywords, str "japan", by decide, by decide, by decide⟩,
      ⟨koreanKeywords, str "한국어", by decide, by decide, by decide⟩,
      by decide⟩,
    C2_table_order_precedence (str "한국어 japan") (str "japanese") (str "korean")
      ⟨japaneseKeywords, str "japan", by decide, by decide, by decide⟩
      ⟨koreanKeywords, str "한국어", by decide, by decide, by decide⟩
      (by decide)⟩

end MoxieTranslator


namespace MoxieTranslator

/-- C10: the handler never resolves with `true`: every guard-failure and
error path resolves with `false`, and the success path falls off the end of
the body, resolving with no value (`undefined`, modelled as `none`). -/
theorem C10_handler_return_value (apiKey : Option (List Char)) (msgs : List Msg)
    (agentId : List Char) (messageText : Option (List Char))
    (detect : DetectOutcome) (translate : TranslateOutcome) :
    ((translateHandler apiKey msgs agentId messageText detect translate).ret = some false ∨
      (translateHandler apiKey msgs agentId messageText detect translate).ret = none) ∧
    ((translateHandler apiKey msgs agentId messageText detect translate).ret = none ↔
      (jsTruthy apiKey = true ∧ 2 ≤ msgs.length ∧
        (∃ m content, findLastAgentMessage msgs agentId = some m ∧
          m.content = some content ∧ jsTruthy content.text = true) ∧
        (∃ lang, detect = DetectOutcome.ok lang) ∧
        (∃ t, translate = TranslateOutcome.ok t))) := by
  cases h1 : jsTruthy apiKey with
  | false =>
    have hret : (translateHandler apiKey msgs agentId messageText detect translate).ret =
        some false := by
      simp [translateHandler, h1]
    rw [hret]
    refine ⟨Or.inl rfl, ?_⟩
    simp [h1]
  | true =>
    by_cases h2 : msgs.length < 2
    · have hret : (translateHandler apiKey msgs agentId messageText detect translate).ret =
          some false := by
        simp [translateHandler, h1, h2]
      rw [hret]
      exact ⟨Or.inl rfl,
        ⟨fun h => Option.noConfusion h, fun hR => absurd hR.2.1 (by omega)⟩⟩
    · cases hf : findLastAgentMessage msgs agentId with
      | none =>
        have hret : (translateHandler apiKey msgs agentId messageText detect translate).ret =
            some false := by
          simp [translateHandler, h1, h2, hf]
        rw [hret]
        refine ⟨Or.inl rfl, ⟨fun h => Option.noConfusion h, ?_⟩⟩
        rintro ⟨-, -, ⟨m2, c2, hm2, -, -⟩, -⟩
        exact Option.noConfusion hm2
      | some m =>
        cases hc : m.content with
        | none =>
          have hret : (translateHandler apiKey msgs agentId messageText detect translate).ret =
              some false := by
            simp [translateHandler, h1, h2, hf, hc]
          rw [hret]
          refine ⟨Or.inl rfl, ⟨fun h => Option.noConfusion h, ?_⟩⟩
          rintro ⟨-, -, ⟨m2, c2, hm2, hc2, -⟩, -⟩
          obtain rfl : m = m2 := Option.some.inj hm2
          rw [hc] at hc2
          exact Option.noConfusion hc2
        | some content =>
          cases ht : jsTruthy content.text with
          | false =>
            have hret : (translateHandler apiKey msgs agentId messageText detect translate).ret =
                some false := by
              simp [translateHandler, h1, h2, hf, hc, ht]
            rw [hret]
            refine ⟨Or.inl rfl, ⟨fun h => Option.noConfusion h, ?_⟩⟩
            rintro ⟨-, -, ⟨m2, c2, hm2, hc2, ht2⟩, -⟩
            obtain rfl : m = m2 := Option.some.inj hm2
            rw [hc] at hc2
            obtain rfl : content = c2 := Option.some.inj hc2
            rw [ht] at ht2
            exact Bool.noConfusion ht2
          | true =>
            cases detect with
            | err =>
              have hret : (translateHandler apiKey msgs agentId messageText
                  DetectOutcome.err translate).ret = some false := by
                simp [translateHandler, h1, h2, hf, hc, ht]
              rw [hret]
              refine ⟨Or.inl rfl, ⟨fun h => Option.noConfusion h, ?_⟩⟩
              rintro ⟨-, -, -, ⟨lang, hd⟩, -⟩
              exact DetectOutcome.noConfusion hd
            | ok lang =>
              cases translate with
              | err message =>
                have hret : (translateHandler apiKey msgs agentId messageText
                    (DetectOutcome.ok lang) (TranslateOutcome.err message)).ret =
                    some false := by
                  simp [translateHandler, h1, h2, hf, hc, ht]
                rw [hret]
                refine ⟨Or.inl rfl, ⟨fun h => Option.noConfusion h, ?_⟩⟩
                rintro ⟨-, -, -, -, ⟨t, htr⟩⟩
                exact TranslateOutcome.noConfusion htr
              | ok t =>
                have hret : (translateHandler apiKey msgs agentId messageText
                    (DetectOutcome.ok lang) (TranslateOutcome.ok t)).ret = none := by
                  simp [translateHandler, h1, h2, hf, hc, ht]
                rw [hret]
                refine ⟨Or.inr rfl, ⟨fun _ => ?_, fun _ => rfl⟩⟩
                exact ⟨rfl, Nat.not_lt.mp h2, ⟨m, content, rfl, hc, ht⟩,
                  ⟨lang, rfl⟩, ⟨t, rfl⟩⟩

theorem C10_handler_return_value_witness :
    (translateHandler (some (str "sk-key"))
        [⟨str "user1", some ⟨some (str "translate to japanese")⟩⟩,
         ⟨str "agent", some ⟨some (str "Hello, world!")⟩⟩]
        (str "agent") (some (str "translate to japanese"))
        (DetectOutcome.ok (str "japanese"))
        (TranslateOutcome.ok (str "konnichiwa"))).ret = none ∧
    (translateHandler none [] (str "agent") none DetectOutcome.err
        (TranslateOutcome.err (str "boom"))).ret = some false :=
  ⟨(C10_handler_return_value (some (str "sk-key"))
      [⟨str "user1", some ⟨some (str "translate to japanese")⟩⟩,
       ⟨str "agent", some ⟨some (str "Hello, world!")⟩⟩]
      (str "agent") (some (str "translate to japanese"))
      (DetectOutcome.ok (str "japanese"))
      (TranslateOutcome.ok (str "konnichiwa"))).2.mpr
      ⟨by decide, by decide,
        ⟨⟨str "agent", some ⟨some (str "Hello, world!")⟩⟩,
          ⟨some (str "Hello, world!")⟩, rfl, rfl, by decide⟩,
        ⟨str "japanese", rfl⟩, ⟨str "konnichiwa", rfl⟩⟩,
    (C10_handler_return_value none [] (str "agent") none DetectOutcome.err
        (TranslateOutcome.err (str "boom"))).1.resolve_right
      (fun h => absurd ((C10_handler_return_value none [] (str "agent") none
          DetectOutcome.err (TranslateOutcome.err (str "boom"))).2.mp h).1
        (by decide))⟩

end MoxieTranslator
